import Mathlib

/-!
Shallow embedding of `movies/omdb_integration.py`: the OMDb integration layer
of the course4_proj repository.  The persistent store (Django ORM rows for
`Movie`, `Genre`, `SearchTerm`) is modelled as explicit lists of records; the
catalog client's responses are parameters; time is an integer number of
seconds.  The operations `get_or_create_genres`, `fill_movie_details` and
`search_and_save` are translated line by line from the source.
-/

namespace Omdb

/-- Characters matched by Python's regex `\s` on ASCII input: space (32),
tab (9), newline (10), carriage return (13), vertical tab (11), form
feed (12). -/
def pyIsSpace (c : Char) : Bool :=
  c.toNat = 32 || c.toNat = 9 || c.toNat = 10 || c.toNat = 13 || c.toNat = 11 || c.toNat = 12

/-- ASCII lowercasing, as Python's `str.lower` acts on ASCII strings: each
uppercase letter (codepoints 65-90) is shifted down into `a`-`z`. -/
def pyToLower (c : Char) : Char :=
  if 65 ≤ c.toNat ∧ c.toNat ≤ 90 then Char.ofNat (c.toNat + 32) else c

/-- Removal of a leading whitespace run. -/
def dropSpaces (s : List Char) : List Char :=
  s.dropWhile (fun c => pyIsSpace c)

/-- Replacement of each maximal run of whitespace by a single space, the
effect of `re.sub(r"\s+", " ", s)`. -/
def collapseWS : List Char → List Char
  | [] => []
  | [c] => if pyIsSpace c then [' '] else [c]
  | c :: d :: rest =>
    if pyIsSpace c then
      if pyIsSpace d then collapseWS (d :: rest)
      else ' ' :: collapseWS (d :: rest)
    else c :: collapseWS (d :: rest)

/-- The normalization on line 52 of `omdb_integration.py`:
`re.sub(r"\s+", " ", search.lower())` — lowercase, then collapse whitespace
runs to single spaces. -/
def pyNormalize (s : List Char) : List Char :=
  collapseWS (s.map pyToLower)

/-- String version of the search-term normalization. -/
def pyNormalizeStr (s : String) : String :=
  String.mk (pyNormalize s.data)

/-- Fuel-bounded comparison of run structure: see `runEquiv`. -/
def runEquivF : Nat → List Char → List Char → Bool
  | _, [], [] => true
  | fuel + 1, c :: s, d :: t =>
    if pyIsSpace c then
      pyIsSpace d && runEquivF fuel (dropSpaces s) (dropSpaces t)
    else
      !(pyIsSpace d) && (pyToLower c == pyToLower d) && runEquivF fuel s t
  | _, _, _ => false

/-- Two strings differ only in the lengths of their whitespace runs or in
letter case: they decompose into the same alternation of whitespace runs
(of arbitrary positive lengths) and non-whitespace characters equal up to
ASCII case.  This formalizes the hypothesis of the normalization claim; the
fuel is ample, since every step consumes at least one character per side. -/
def runEquiv (s t : List Char) : Bool :=
  runEquivF (s.length + t.length) s t

/-- Search result as returned by `omdb_client.search`. -/
structure OmdbMovie where
  title : String
  year : Nat
  imdb_id : String
deriving DecidableEq, Repr

/-- Full detail record as returned by `omdb_client.get_by_imdb_id`. -/
structure MovieDetails where
  title : String
  year : Nat
  plot : String
  runtime_minutes : Nat
  genres : List String
deriving DecidableEq, Repr

/-- Error raised by the catalog client or by the store. -/
structure ClientError where
  msg : String
deriving DecidableEq, Repr

/-- A stored `Movie` row.  A Genre is keyed by its unique name, so a movie's
genre associations are the list of associated genre names.  `plot` and
`runtime_minutes` are absent on a partial record. -/
structure Movie where
  imdb_id : String
  title : String
  year : Nat
  plot : Option String
  runtime_minutes : Option Nat
  genres : List String
  is_full_record : Bool
deriving DecidableEq, Repr

/-- A stored `SearchTerm` row. -/
structure SearchTerm where
  term : String
  last_search : Int
deriving DecidableEq, Repr

/-- The persistent store: `Movie` rows, `Genre` rows (each a unique name),
and `SearchTerm` rows. -/
structure Store where
  movies : List Movie
  genreNames : List String
  terms : List SearchTerm
deriving DecidableEq, Repr

/-- Lookup of a movie row by its external (IMDb) id. -/
def lookupMovie (id : String) (st : Store) : Option Movie :=
  st.movies.find? (fun m => m.imdb_id = id)

/-- Lookup of a search-term row by its normalized term. -/
def lookupTerm (key : String) (st : Store) : Option SearchTerm :=
  st.terms.find? (fun t => t.term = key)

/-- One day, `timedelta(days=1)`, in seconds. -/
def day : Int := 86400

/-- The helper `get_or_create_genres` (lines 16-20): for each genre name,
`Genre.objects.get_or_create(name=genre_name)` and yield the genre.  Returns
the resolved genre names in input order together with the updated store. -/
def get_or_create_genres : List String → Store → List String × Store
  | [], st => ([], st)
  | n :: rest, st =>
    let st1 := if st.genreNames.contains n then st
               else { st with genreNames := st.genreNames ++ [n] }
    let r := get_or_create_genres rest st1
    (n :: r.1, r.2)

/-- Addition of one genre association, `movie.genres.add(genre)`: a set-add,
a no-op when the association already exists. -/
def addGenre (m : Movie) (g : String) : Movie :=
  if m.genres.contains g then m else { m with genres := m.genres ++ [g] }

/-- Persistence of a movie row, `movie.save()`: the row with the movie's
primary key is replaced; a row is inserted when none exists. -/
def saveMovie (m : Movie) (st : Store) : Store :=
  if st.movies.any (fun mv => mv.imdb_id = m.imdb_id) then
    { st with movies := st.movies.map (fun mv => if mv.imdb_id = m.imdb_id then m else mv) }
  else
    { st with movies := st.movies ++ [m] }

/-- Outcome of `fill_movie_details`: the store after the call, the movie
object after the call, whether the already-full warning was logged, whether
the catalog client was called, and a propagated client error if any. -/
structure FillOutcome where
  store : Store
  movie : Movie
  warned : Bool
  apiCalled : Bool
  error : Option ClientError
deriving DecidableEq, Repr

/-- The function `fill_movie_details` (lines 22-43).  The catalog client's
response to `get_by_imdb_id(movie.imdb_id)` is the parameter `resp`: `.error`
when the client raises, in which case the error propagates before any
mutation. -/
def fill_movie_details (movie : Movie) (resp : Except ClientError MovieDetails)
    (st : Store) : FillOutcome :=
  if movie.is_full_record then
    { store := st, movie := movie, warned := true, apiCalled := false, error := none }
  else
    match resp with
    | .error e => { store := st, movie := movie, warned := false, apiCalled := true, error := some e }
    | .ok d =>
      let m1 : Movie :=
        { movie with
          title := d.title
          year := d.year
          plot := some d.plot
          runtime_minutes := some d.runtime_minutes
          genres := [] }
      let r := get_or_create_genres d.genres st
      let m2 := r.1.foldl addGenre m1
      let m3 := { m2 with is_full_record := true }
      { store := saveMovie m3 r.2, movie := m3, warned := false, apiCalled := true, error := none }

/-- Modelled from the spec: the `SearchTerm` model (in `movies/models.py`,
not part of the provided source) keeps `last_search` current on every save
(`auto_now` semantics): "updates and persists the SearchTerm's last-search
timestamp to the current time".  Saving the term therefore sets its
`last_search` to `now`. -/
def saveTerm (key : String) (now : Int) (st : Store) : Store :=
  { st with terms := st.terms.map (fun t => if t.term = key then { t with last_search := now } else t) }

/-- Modelled from the spec: `Movie.is_full_record` (declared in
`movies/models.py`, not part of the provided source) defaults to false, so a
movie created from a search result is a partial record; `plot` and
`runtime_minutes` are unset.  This is the row built by
`Movie.objects.get_or_create(imdb_id=..., defaults={"title": ..., "year": ...})`
when no row with that id exists. -/
def partialMovie (r : OmdbMovie) : Movie :=
  { imdb_id := r.imdb_id, title := r.title, year := r.year,
    plot := none, runtime_minutes := none, genres := [], is_full_record := false }

/-- One step of the result loop (lines 66-77):
`Movie.objects.get_or_create(imdb_id=..., defaults=...)`.  Returns the store
and the `created` flag. -/
def saveResult (st : Store) (r : OmdbMovie) : Store × Bool :=
  match lookupMovie r.imdb_id st with
  | some _ => (st, false)
  | none => ({ st with movies := st.movies ++ [partialMovie r] }, true)

/-- The result loop of `search_and_save`.  The store collaborator may fail
while persisting a result (`persistFail` on that result's id): the error then
propagates with the store as already mutated, and the remaining results are
not processed. -/
def processResults (persistFail : String → Bool) :
    List OmdbMovie → Store → Store × Option ClientError
  | [], st => (st, none)
  | r :: rest, st =>
    if persistFail r.imdb_id then
      (st, some { msg := r.imdb_id })
    else
      processResults persistFail rest (saveResult st r).1

/-- Outcome of `search_and_save`: the store after the call, whether the
rate-limit warning was logged, whether the catalog client's search was
called, and a propagated error if any. -/
structure SearchOutcome where
  store : Store
  warned : Bool
  apiCalled : Bool
  error : Option ClientError
deriving DecidableEq, Repr

/-- The body of `search_and_save` after the recency guard (lines 64-79): call
the client's search, process every result, then `search_term.save()`. -/
def runSearch (key : String) (now : Int) (results : List OmdbMovie)
    (persistFail : String → Bool) (st : Store) : SearchOutcome :=
  match processResults persistFail results st with
  | (st1, some e) => { store := st1, warned := false, apiCalled := true, error := some e }
  | (st1, none) => { store := saveTerm key now st1, warned := false, apiCalled := true, error := none }

/-- The function `search_and_save` (lines 46-79).  The raw search string is
normalized (line 52); `SearchTerm.objects.get_or_create` (line 54) finds or
creates the term row (a created row carries `last_search = now`, `auto_now`);
if the term already existed and `search_term.last_search > now() - timedelta(days=1)`
(line 56, strict comparison) the call logs a warning and returns; otherwise
the client's search runs and every result is upserted, and finally
`search_term.save()` refreshes the timestamp. -/
def search_and_save (search : String) (now : Int) (results : List OmdbMovie)
    (persistFail : String → Bool) (st : Store) : SearchOutcome :=
  let key := pyNormalizeStr search
  match lookupTerm key st with
  | some term =>
    if term.last_search > now - day then
      { store := st, warned := true, apiCalled := false, error := none }
    else
      runSearch key now results persistFail st
  | none =>
    runSearch key now results persistFail
      { st with terms := st.terms ++ [{ term := key, last_search := now }] }

/-- The state of the `SearchTerm` table right after line 54's
`SearchTerm.objects.get_or_create(term=...)`: unchanged when the term row
already exists, otherwise extended with a fresh row. -/
def ensureTerm (key : String) (now : Int) (st : Store) : Store :=
  match lookupTerm key st with
  | some _ => st
  | none => { st with terms := st.terms ++ [{ term := key, last_search := now }] }

/-- An invocation of either operation, for stating sequence invariants: a
detail fill of the stored movie with the given id, under a given client
response, or a search with given clock, client results and store faults. -/
inductive Op where
  | fill (id : String) (resp : Except ClientError MovieDetails)
  | search (q : String) (now : Int) (results : List OmdbMovie) (persistFail : String → Bool)

/-- Effect of one operation on the store. -/
def stepOp : Op → Store → Store
  | .fill id resp, st =>
    match lookupMovie id st with
    | some m => (fill_movie_details m resp st).store
    | none => st
  | .search q now results persistFail, st =>
    (search_and_save q now results persistFail st).store

/-- Effect of a sequence of operations on the store. -/
def runOps (ops : List Op) (st : Store) : Store :=
  ops.foldl (fun s op => stepOp op s) st

/-! ### Lemmas about the search-string normalization -/

theorem toNat_charOfNat (n : Nat) (h : n.isValidChar) : (Char.ofNat n).toNat = n := by
  simp only [Char.ofNat, h, dif_pos, Char.ofNatAux, Char.toNat]
  rfl

theorem toNat_pyToLower_of_upper (c : Char) (h : 65 ≤ c.toNat ∧ c.toNat ≤ 90) :
    (pyToLower c).toNat = c.toNat + 32 := by
  have hv : (c.toNat + 32).isValidChar := Or.inl (by omega)
  rw [pyToLower, if_pos h]
  exact toNat_charOfNat _ hv

theorem pyIsSpace_pyToLower (c : Char) : pyIsSpace (pyToLower c) = pyIsSpace c := by
  by_cases h : 65 ≤ c.toNat ∧ c.toNat ≤ 90
  · have h2 := toNat_pyToLower_of_upper c h
    rw [Bool.eq_iff_iff]
    simp only [pyIsSpace, h2, Bool.or_eq_true, decide_eq_true_eq]
    omega
  · simp [pyToLower, h]

theorem pyToLower_of_space (c : Char) (h : pyIsSpace c = true) : pyToLower c = c := by
  simp only [pyIsSpace, Bool.or_eq_true, decide_eq_true_eq] at h
  rw [pyToLower, if_neg]
  omega

theorem dropSpaces_map_pyToLower (s : List Char) :
    dropSpaces (s.map pyToLower) = (dropSpaces s).map pyToLower := by
  induction s with
  | nil => simp [dropSpaces]
  | cons c s ih =>
    simp only [List.map_cons, dropSpaces, List.dropWhile, pyIsSpace_pyToLower] at *
    cases hc : pyIsSpace c <;> simp [hc, ih]

theorem collapseWS_cons_space :
    ∀ (s : List Char) (c : Char), pyIsSpace c = true →
      collapseWS (c :: s) = ' ' :: collapseWS (dropSpaces s)
  | [], c, hc => by simp [collapseWS, hc, dropSpaces]
  | d :: rest, c, hc => by
    cases hd : pyIsSpace d
    · simp [collapseWS, hc, hd, dropSpaces, List.dropWhile]
    · simp only [collapseWS, hc, if_pos, hd, if_true]
      rw [collapseWS_cons_space rest d hd]
      simp [dropSpaces, List.dropWhile, hd]

theorem collapseWS_cons_nonspace (c : Char) (s : List Char) (hc : pyIsSpace c = false) :
    collapseWS (c :: s) = c :: collapseWS s := by
  cases s with
  | nil => simp [collapseWS, hc]
  | cons d rest => simp [collapseWS, hc]

theorem pyNormalize_cons_space (c : Char) (s : List Char) (hc : pyIsSpace c = true) :
    pyNormalize (c :: s) = ' ' :: pyNormalize (dropSpaces s) := by
  have hc2 : pyIsSpace (pyToLower c) = true := by rw [pyIsSpace_pyToLower, hc]
  simp only [pyNormalize, List.map_cons]
  rw [collapseWS_cons_space _ _ hc2, dropSpaces_map_pyToLower]

theorem pyNormalize_cons_nonspace (c : Char) (s : List Char) (hc : pyIsSpace c = false) :
    pyNormalize (c :: s) = pyToLower c :: pyNormalize s := by
  have hc2 : pyIsSpace (pyToLower c) = false := by rw [pyIsSpace_pyToLower, hc]
  simp only [pyNormalize, List.map_cons]
  rw [collapseWS_cons_nonspace _ _ hc2]

theorem pyNormalize_eq_of_runEquivF : ∀ (fuel : Nat) (s t : List Char),
    runEquivF fuel s t = true → pyNormalize s = pyNormalize t := by
  intro fuel
  induction fuel with
  | zero =>
    intro s t h
    match s, t with
    | [], [] => rfl
    | c :: s, t => simp [runEquivF] at h
    | [], d :: t => simp [runEquivF] at h
  | succ fuel ih =>
    intro s t h
    match s, t with
    | [], [] => rfl
    | c :: s, [] => simp [runEquivF] at h
    | [], d :: t => simp [runEquivF] at h
    | c :: s, d :: t =>
      cases hc : pyIsSpace c
      · simp only [runEquivF, hc, Bool.false_eq_true, if_false, Bool.and_eq_true,
          Bool.not_eq_true', beq_iff_eq] at h
        rw [pyNormalize_cons_nonspace c s hc, pyNormalize_cons_nonspace d t h.1.1,
          h.1.2, ih _ _ h.2]
      · simp only [runEquivF, hc, if_true, Bool.and_eq_true] at h
        rw [pyNormalize_cons_space c s hc, pyNormalize_cons_space d t h.1,
          ih _ _ h.2]

theorem pyNormalize_eq_of_runEquiv (s t : List Char) (h : runEquiv s t = true) :
    pyNormalize s = pyNormalize t :=
  pyNormalize_eq_of_runEquivF (s.length + t.length) s t h

theorem collapseWS_append_space :
    ∀ (l : List Char) (c : Char), pyIsSpace c = true →
      ∃ l2, collapseWS (l ++ [c]) = l2 ++ [' ']
  | [], c, hc => ⟨[], by simp [collapseWS, hc]⟩
  | a :: l, c, hc => by
    cases l with
    | nil =>
      cases ha : pyIsSpace a
      · exact ⟨[a], by simp [collapseWS, ha, hc]⟩
      · exact ⟨[], by simp [collapseWS, ha, hc]⟩
    | cons b l2 =>
      obtain ⟨m, hm⟩ := collapseWS_append_space (b :: l2) c hc
      cases ha : pyIsSpace a
      · refine ⟨a :: m, ?_⟩
        rw [List.cons_append, collapseWS_cons_nonspace a _ ha, hm]
        rfl
      · cases hb : pyIsSpace b
        · refine ⟨' ' :: m, ?_⟩
          rw [List.cons_append, collapseWS_cons_space _ a ha]
          rw [show dropSpaces ((b :: l2) ++ [c]) = (b :: l2) ++ [c] by
            simp [dropSpaces, List.dropWhile, hb]]
          rw [hm]
          rfl
        · refine ⟨m, ?_⟩
          rw [List.cons_append, collapseWS_cons_space _ a ha,
            collapseWS_cons_space _ b hb] at *
          rw [show dropSpaces ((b :: l2) ++ [c]) = dropSpaces (l2 ++ [c]) by
            simp [dropSpaces, List.dropWhile, hb]]
          exact hm

theorem pyNormalize_append_space (c : Char) (s : List Char) (hc : pyIsSpace c = true) :
    ∃ l, pyNormalize (s ++ [c]) = l ++ [' '] := by
  simp only [pyNormalize, List.map_append, List.map_cons, List.map_nil,
    pyToLower_of_space c hc]
  exact collapseWS_append_space (s.map pyToLower) c hc

/-- C7: strings that differ only in the lengths of their whitespace runs or
in letter case receive the identical normalized `SearchTerm` key from
`search_and_save`'s normalization. -/
theorem normalize_respects_run_and_case_equiv (a b : String)
    (h : runEquiv a.data b.data = true) :
    pyNormalizeStr a = pyNormalizeStr b := by
  unfold pyNormalizeStr
  rw [pyNormalize_eq_of_runEquiv a.data b.data h]

/-- Witness for C7: "Star  Wars", "star wars" and "STAR WARS" all map to
the key "star wars". -/
theorem normalize_respects_run_and_case_equiv_inst :
    pyNormalizeStr "Star  Wars" = pyNormalizeStr "star wars"
    ∧ pyNormalizeStr "STAR WARS" = pyNormalizeStr "star wars"
    ∧ pyNormalizeStr "star wars" = "star wars" :=
  ⟨normalize_respects_run_and_case_equiv "Star  Wars" "star wars" (by decide),
   normalize_respects_run_and_case_equiv "STAR WARS" "star wars" (by decide),
   by decide⟩

/-- C10: the normalization keeps leading and trailing whitespace as a single
space: a key built from a string with a leading whitespace run starts with a
space, one with a trailing run ends with a space; " star wars", "star wars "
and "star wars" give three pairwise distinct `SearchTerm` keys, and a search
for " star wars" right after one for "star wars" is rate-limited
independently (the API is called again). -/
theorem normalize_keeps_edge_whitespace :
    (∀ c s, pyIsSpace c = true → (pyNormalize (c :: s)).head? = some ' ')
    ∧ (∀ c s, pyIsSpace c = true → ∃ l, pyNormalize (s ++ [c]) = l ++ [' '])
    ∧ pyNormalizeStr " star wars" = " star wars"
    ∧ pyNormalizeStr "star wars " = "star wars "
    ∧ pyNormalizeStr " star wars" ≠ pyNormalizeStr "star wars"
    ∧ pyNormalizeStr "star wars " ≠ pyNormalizeStr "star wars"
    ∧ pyNormalizeStr " star wars" ≠ pyNormalizeStr "star wars "
    ∧ (search_and_save " star wars" 0 [] (fun _ => false)
        (search_and_save "star wars" 0 [] (fun _ => false)
          { movies := [], genreNames := [], terms := [] }).store).apiCalled = true := by
  refine ⟨fun c s hc => ?_, fun c s hc => pyNormalize_append_space c s hc,
    by decide, by decide, by decide, by decide, by decide, by decide⟩
  rw [pyNormalize_cons_space c s hc]
  rfl

/-- Witness for C10: the leading- and trailing-run statements applied to a
space in front of and behind "star wars". -/
theorem normalize_keeps_edge_whitespace_inst :
    (pyNormalize (' ' :: ("star wars").data)).head? = some ' '
    ∧ ∃ l, pyNormalize (("star wars").data ++ [' ']) = l ++ [' '] :=
  ⟨normalize_keeps_edge_whitespace.1 ' ' ("star wars").data (by decide),
   normalize_keeps_edge_whitespace.2.1 ' ' ("star wars").data (by decide)⟩

/-! ### Lemmas about the store operations -/

theorem find?_append_some {α : Type} (p : α → Bool) {l1 : List α} (l2 : List α) {x : α}
    (h : l1.find? p = some x) : (l1 ++ l2).find? p = some x := by
  rw [List.find?_append, h]
  rfl

theorem find?_append_none {α : Type} (p : α → Bool) {l1 : List α} (l2 : List α)
    (h : l1.find? p = none) : (l1 ++ l2).find? p = l2.find? p := by
  rw [List.find?_append, h]
  rfl

theorem lookupMovie_saveResult_some {id : String} {st : Store} {m : Movie}
    (r : OmdbMovie) (h : lookupMovie id st = some m) :
    lookupMovie id (saveResult st r).1 = some m := by
  rw [saveResult]
  cases hf : lookupMovie r.imdb_id st
  · exact find?_append_some _ _ h
  · exact h

theorem lookupMovie_saveResult_none {id : String} {st : Store}
    (r : OmdbMovie) (hne : r.imdb_id ≠ id) (h : lookupMovie id st = none) :
    lookupMovie id (saveResult st r).1 = none := by
  rw [saveResult]
  cases hf : lookupMovie r.imdb_id st
  · rw [lookupMovie] at *
    rw [find?_append_none _ _ h]
    simp [partialMovie, hne]
  · exact h

theorem lookupMovie_saveResult_self {st : Store} (r : OmdbMovie)
    (h : lookupMovie r.imdb_id st = none) :
    lookupMovie r.imdb_id (saveResult st r).1 = some (partialMovie r) := by
  rw [saveResult, h]
  rw [lookupMovie] at *
  rw [find?_append_none _ _ h]
  simp [partialMovie]

theorem saveResult_isSome (st : Store) (r : OmdbMovie) :
    (lookupMovie r.imdb_id (saveResult st r).1).isSome := by
  cases hf : lookupMovie r.imdb_id st
  · rw [lookupMovie_saveResult_self r hf]
    rfl
  · rw [lookupMovie_saveResult_some r hf]
    rfl

theorem saveResult_terms (st : Store) (r : OmdbMovie) :
    (saveResult st r).1.terms = st.terms := by
  rw [saveResult]
  cases lookupMovie r.imdb_id st <;> rfl

theorem processResults_some (pf : String → Bool) :
    ∀ (rs : List OmdbMovie) {st : Store} {id : String} {m : Movie},
      lookupMovie id st = some m →
      lookupMovie id (processResults pf rs st).1 = some m := by
  intro rs
  induction rs with
  | nil => intro st id m h; exact h
  | cons r rest ih =>
    intro st id m h
    rw [processResults]
    cases hp : pf r.imdb_id
    · simp only [Bool.false_eq_true, if_false]
      exact ih (lookupMovie_saveResult_some r h)
    · simp only [if_true]
      exact h

theorem processResults_isSome (pf : String → Bool) (rs : List OmdbMovie)
    {st : Store} {id : String} (h : (lookupMovie id st).isSome) :
    (lookupMovie id (processResults pf rs st).1).isSome := by
  obtain ⟨m, hm⟩ := Option.isSome_iff_exists.mp h
  rw [processResults_some pf rs hm]
  rfl

theorem processResults_terms (pf : String → Bool) :
    ∀ (rs : List OmdbMovie) (st : Store),
      (processResults pf rs st).1.terms = st.terms := by
  intro rs
  induction rs with
  | nil => intro st; rfl
  | cons r rest ih =>
    intro st
    rw [processResults]
    cases hp : pf r.imdb_id
    · simp only [Bool.false_eq_true, if_false]
      rw [ih, saveResult_terms]
    · rfl

theorem processResults_ok (pf : String → Bool) :
    ∀ (rs : List OmdbMovie) (st : Store), (∀ r ∈ rs, pf r.imdb_id = false) →
      (processResults pf rs st).2 = none := by
  intro rs
  induction rs with
  | nil => intro st _; rfl
  | cons r rest ih =>
    intro st h
    rw [processResults]
    rw [h r (List.mem_cons_self r rest)]
    simp only [Bool.false_eq_true, if_false]
    exact ih _ (fun x hx => h x (List.mem_cons_of_mem r hx))

theorem processResults_chain (pf : String → Bool) :
    ∀ (pre rest : List OmdbMovie) (st : Store), (∀ r ∈ pre, pf r.imdb_id = false) →
      processResults pf (pre ++ rest) st
        = processResults pf rest (processResults pf pre st).1 := by
  intro pre
  induction pre with
  | nil => intro rest st _; rfl
  | cons r pre ih =>
    intro rest st h
    rw [List.cons_append, processResults, processResults,
      h r (List.mem_cons_self r pre)]
    simp only [Bool.false_eq_true, if_false]
    exact ih rest _ (fun x hx => h x (List.mem_cons_of_mem r hx))

theorem processResults_creates (pf : String → Bool) :
    ∀ (rs : List OmdbMovie) (st : Store) (r : OmdbMovie),
      r ∈ rs → (rs.map (fun x => x.imdb_id)).Nodup →
      (∀ x ∈ rs, pf x.imdb_id = false) →
      lookupMovie r.imdb_id st = none →
      lookupMovie r.imdb_id (processResults pf rs st).1 = some (partialMovie r) := by
  intro rs
  induction rs with
  | nil => intro st r hr; exact absurd hr (List.not_mem_nil r)
  | cons x rest ih =>
    intro st r hr hnd hok hnone
    rw [processResults, hok x (List.mem_cons_self x rest)]
    simp only [Bool.false_eq_true, if_false]
    rcases List.mem_cons.mp hr with heq | hmem
    · subst heq
      exact processResults_some pf rest (lookupMovie_saveResult_self r hnone)
    · have hne : x.imdb_id ≠ r.imdb_id := by
        intro hcontra
        have : r.imdb_id ∈ rest.map (fun y => y.imdb_id) :=
          List.mem_map.mpr ⟨r, hmem, rfl⟩
        rw [List.map_cons, List.nodup_cons] at hnd
        exact hnd.1 (hcontra ▸ this)
      exact ih _ r hmem (by
          rw [List.map_cons, List.nodup_cons] at hnd
          exact hnd.2)
        (fun y hy => hok y (List.mem_cons_of_mem x hy))
        (lookupMovie_saveResult_none x hne hnone)

theorem find?_map_refresh (key : String) (now : Int) :
    ∀ l : List SearchTerm, (l.find? (fun t => t.term = key)).isSome →
      (l.map (fun t => if t.term = key then { t with last_search := now } else t)).find?
        (fun t => t.term = key) = some { term := key, last_search := now } := by
  intro l
  induction l with
  | nil => intro h; simp at h
  | cons t rest ih =>
    intro h
    by_cases ht : t.term = key
    · have h2 : ({ t with last_search := now } : SearchTerm).term = key := ht
      simp only [List.map_cons, if_pos ht, List.find?_cons, h2, decide_True]
      cases t
      simp_all
    · have hd : decide (t.term = key) = false := by simp [ht]
      simp only [List.map_cons, if_neg ht, List.find?_cons, hd] at h ⊢
      exact ih h

theorem lookupTerm_saveTerm {key : String} {st : Store} (now : Int)
    (h : (lookupTerm key st).isSome) :
    lookupTerm key (saveTerm key now st) = some { term := key, last_search := now } := by
  have h2 := find?_map_refresh key now st.terms (by rwa [lookupTerm] at h)
  rw [lookupTerm, saveTerm]
  exact h2

theorem saveTerm_movies (key : String) (now : Int) (st : Store) :
    (saveTerm key now st).movies = st.movies := rfl

theorem runSearch_apiCalled (key : String) (now : Int) (results : List OmdbMovie)
    (pf : String → Bool) (st : Store) :
    (runSearch key now results pf st).apiCalled = true := by
  rw [runSearch]
  rcases h : processResults pf results st with ⟨st1, err⟩
  cases err <;> rfl

theorem runSearch_movie_some (key : String) (now : Int) (results : List OmdbMovie)
    (pf : String → Bool) {st : Store} {id : String} {m : Movie}
    (h : lookupMovie id st = some m) :
    lookupMovie id (runSearch key now results pf st).store = some m := by
  rw [runSearch]
  have hp := processResults_some pf results h
  rcases hpr : processResults pf results st with ⟨st1, err⟩
  rw [hpr] at hp
  cases err
  · simpa [lookupMovie, saveTerm_movies] using hp
  · exact hp

theorem lookupMovie_congr {st1 st2 : Store} (id : String) (h : st1.movies = st2.movies) :
    lookupMovie id st1 = lookupMovie id st2 := by
  rw [lookupMovie, lookupMovie, h]

theorem lookupTerm_congr {st1 st2 : Store} (key : String) (h : st1.terms = st2.terms) :
    lookupTerm key st1 = lookupTerm key st2 := by
  rw [lookupTerm, lookupTerm, h]

theorem fst_get_or_create_genres : ∀ (ns : List String) (st : Store),
    (get_or_create_genres ns st).1 = ns := by
  intro ns
  induction ns with
  | nil => intro st; rfl
  | cons n rest ih =>
    intro st
    rw [get_or_create_genres]
    simp only [ih]

theorem movies_get_or_create_genres : ∀ (ns : List String) (st : Store),
    (get_or_create_genres ns st).2.movies = st.movies := by
  intro ns
  induction ns with
  | nil => intro st; rfl
  | cons n rest ih =>
    intro st
    rw [get_or_create_genres]
    simp only [ih]
    cases st.genreNames.contains n <;> rfl

theorem terms_get_or_create_genres : ∀ (ns : List String) (st : Store),
    (get_or_create_genres ns st).2.terms = st.terms := by
  intro ns
  induction ns with
  | nil => intro st; rfl
  | cons n rest ih =>
    intro st
    rw [get_or_create_genres]
    simp only [ih]
    cases st.genreNames.contains n <;> rfl

theorem mem_genreNames_get_or_create : ∀ (ns : List String) (st : Store) (g : String),
    g ∈ (get_or_create_genres ns st).2.genreNames ↔ g ∈ st.genreNames ∨ g ∈ ns := by
  intro ns
  induction ns with
  | nil => intro st g; simp [get_or_create_genres]
  | cons n rest ih =>
    intro st g
    rw [get_or_create_genres]
    simp only [ih]
    cases hc : st.genreNames.contains n
    · simp only [Bool.false_eq_true, if_false, List.mem_append, List.mem_singleton,
        List.mem_cons]
      tauto
    · have hn : n ∈ st.genreNames := by simpa using hc
      simp only [if_true, List.mem_cons]
      constructor
      · tauto
      · rintro (h | h | h)
        · exact Or.inl h
        · exact Or.inl (h ▸ hn)
        · exact Or.inr h

theorem nodup_genreNames_get_or_create : ∀ (ns : List String) (st : Store),
    st.genreNames.Nodup → (get_or_create_genres ns st).2.genreNames.Nodup := by
  intro ns
  induction ns with
  | nil => intro st h; exact h
  | cons n rest ih =>
    intro st h
    rw [get_or_create_genres]
    simp only []
    cases hc : st.genreNames.contains n
    · simp only [Bool.false_eq_true, if_false]
      refine ih _ ?_
      simp only [List.nodup_append, List.nodup_singleton]
      refine ⟨h, trivial, ?_⟩
      intro x hx hx1
      rw [List.mem_singleton] at hx1
      subst hx1
      have hcx : st.genreNames.contains x = true := by simpa using hx
      rw [hcx] at hc
      exact Bool.noConfusion hc
    · simpa using ih st h

theorem addGenre_imdb_id (m : Movie) (g : String) : (addGenre m g).imdb_id = m.imdb_id := by
  rw [addGenre]; split <;> rfl

theorem addGenre_title (m : Movie) (g : String) : (addGenre m g).title = m.title := by
  rw [addGenre]; split <;> rfl

theorem addGenre_year (m : Movie) (g : String) : (addGenre m g).year = m.year := by
  rw [addGenre]; split <;> rfl

theorem addGenre_plot (m : Movie) (g : String) : (addGenre m g).plot = m.plot := by
  rw [addGenre]; split <;> rfl

theorem addGenre_runtime (m : Movie) (g : String) :
    (addGenre m g).runtime_minutes = m.runtime_minutes := by
  rw [addGenre]; split <;> rfl

theorem addGenre_full (m : Movie) (g : String) :
    (addGenre m g).is_full_record = m.is_full_record := by
  rw [addGenre]; split <;> rfl

theorem foldl_addGenre_shape : ∀ (gs : List String) (m : Movie),
    ∃ gl, gs.foldl addGenre m = { m with genres := gl } := by
  intro gs
  induction gs with
  | nil => intro m; exact ⟨m.genres, rfl⟩
  | cons g gs ih =>
    intro m
    obtain ⟨gl, hgl⟩ := ih (addGenre m g)
    refine ⟨gl, ?_⟩
    rw [List.foldl_cons, hgl]
    simp [addGenre_imdb_id, addGenre_title, addGenre_year, addGenre_plot,
      addGenre_runtime, addGenre_full]

theorem mem_foldl_addGenre : ∀ (gs : List String) (m : Movie) (g : String),
    g ∈ (gs.foldl addGenre m).genres ↔ g ∈ m.genres ∨ g ∈ gs := by
  intro gs
  induction gs with
  | nil => intro m g; simp
  | cons x gs ih =>
    intro m g
    rw [List.foldl_cons, ih]
    rw [addGenre]
    cases hc : m.genres.contains x
    · simp only [Bool.false_eq_true, if_false, List.mem_append, List.mem_singleton,
        List.mem_cons]
      tauto
    · have hx : x ∈ m.genres := by simpa using hc
      simp only [if_true, List.mem_cons]
      constructor
      · tauto
      · rintro (h | h | h)
        · exact Or.inl h
        · exact Or.inl (h ▸ hx)
        · exact Or.inr h

theorem find?_map_replace (m : Movie) :
    ∀ l : List Movie, l.any (fun mv => mv.imdb_id = m.imdb_id) = true →
      (l.map (fun mv => if mv.imdb_id = m.imdb_id then m else mv)).find?
        (fun mv => mv.imdb_id = m.imdb_id) = some m := by
  intro l
  induction l with
  | nil => intro h; simp at h
  | cons mv l ih =>
    intro h
    by_cases hmv : mv.imdb_id = m.imdb_id
    · rw [List.map_cons, if_pos hmv]
      exact List.find?_cons_of_pos _ (by simp)
    · rw [List.map_cons, if_neg hmv, List.find?_cons_of_neg _ (by simpa using hmv)]
      rw [List.any_cons] at h
      have hd : (decide (mv.imdb_id = m.imdb_id)) = false := by simpa using hmv
      rw [hd] at h
      simp only [Bool.false_or] at h
      exact ih h

theorem find?_map_replace_ne (m : Movie) (id : String) (hne : id ≠ m.imdb_id) :
    ∀ l : List Movie,
      (l.map (fun mv => if mv.imdb_id = m.imdb_id then m else mv)).find?
        (fun mv => mv.imdb_id = id) = l.find? (fun mv => mv.imdb_id = id) := by
  intro l
  induction l with
  | nil => rfl
  | cons mv l ih =>
    by_cases hmv : mv.imdb_id = m.imdb_id
    · have hd1 : ¬ m.imdb_id = id := fun h => hne h.symm
      have hd2 : ¬ mv.imdb_id = id := fun h => hne (hmv ▸ h.symm)
      rw [List.map_cons, if_pos hmv, List.find?_cons_of_neg _ (by simpa using hd1),
        List.find?_cons_of_neg _ (by simpa using hd2)]
      exact ih
    · rw [List.map_cons, if_neg hmv]
      by_cases hd : mv.imdb_id = id
      · rw [List.find?_cons_of_pos _ (by simpa using hd),
          List.find?_cons_of_pos _ (by simpa using hd)]
      · rw [List.find?_cons_of_neg _ (by simpa using hd),
          List.find?_cons_of_neg _ (by simpa using hd)]
        exact ih

theorem lookupMovie_saveMovie_self (m : Movie) (st : Store) :
    lookupMovie m.imdb_id (saveMovie m st) = some m := by
  rw [saveMovie]
  cases ha : st.movies.any (fun mv => mv.imdb_id = m.imdb_id)
  · simp only [Bool.false_eq_true, if_false, lookupMovie]
    have hnone : st.movies.find? (fun mv => mv.imdb_id = m.imdb_id) = none := by
      rw [List.find?_eq_none]
      intro x hx hpx
      have : st.movies.any (fun mv => mv.imdb_id = m.imdb_id) = true :=
        List.any_eq_true.mpr ⟨x, hx, hpx⟩
      rw [this] at ha
      exact absurd ha.symm (by simp)
    rw [find?_append_none _ _ hnone]
    simp
  · simp only [if_true, lookupMovie]
    exact find?_map_replace m st.movies ha

theorem lookupMovie_saveMovie_ne (m : Movie) (st : Store) (id : String)
    (hne : id ≠ m.imdb_id) :
    lookupMovie id (saveMovie m st) = lookupMovie id st := by
  rw [saveMovie]
  cases ha : st.movies.any (fun mv => mv.imdb_id = m.imdb_id)
  · simp only [Bool.false_eq_true, if_false, lookupMovie]
    rw [List.find?_append]
    have hno : List.find? (fun mv => mv.imdb_id = id) [m] = none := by
      have h1 : ¬ m.imdb_id = id := fun h => hne h.symm
      simp [List.find?, h1]
    rw [hno, Option.or_none]
  · simp only [if_true, lookupMovie]
    exact find?_map_replace_ne m id hne st.movies

theorem genreNames_saveMovie (m : Movie) (st : Store) :
    (saveMovie m st).genreNames = st.genreNames := by
  rw [saveMovie]
  cases st.movies.any (fun mv => mv.imdb_id = m.imdb_id) <;> rfl

theorem terms_saveMovie (m : Movie) (st : Store) :
    (saveMovie m st).terms = st.terms := by
  rw [saveMovie]
  cases st.movies.any (fun mv => mv.imdb_id = m.imdb_id) <;> rfl

theorem processResults_mem_isSome (pf : String → Bool) :
    ∀ (rs : List OmdbMovie) (st : Store) (r : OmdbMovie), r ∈ rs →
      (∀ x ∈ rs, pf x.imdb_id = false) →
      (lookupMovie r.imdb_id (processResults pf rs st).1).isSome := by
  intro rs
  induction rs with
  | nil => intro st r hr _; exact absurd hr (List.not_mem_nil r)
  | cons x rest ih =>
    intro st r hr hok
    rw [processResults, hok x (List.mem_cons_self x rest)]
    simp only [Bool.false_eq_true, if_false]
    rcases List.mem_cons.mp hr with heq | hmem
    · subst heq
      exact processResults_isSome pf rest (saveResult_isSome st r)
    · exact ih _ r hmem (fun y hy => hok y (List.mem_cons_of_mem x hy))

theorem ensureTerm_movies (key : String) (now : Int) (st : Store) :
    (ensureTerm key now st).movies = st.movies := by
  rw [ensureTerm]
  cases lookupTerm key st <;> rfl

theorem lookupTerm_ensureTerm_isSome (key : String) (now : Int) (st : Store) :
    (lookupTerm key (ensureTerm key now st)).isSome := by
  rw [ensureTerm]
  cases hl : lookupTerm key st
  · dsimp only
    rw [lookupTerm] at hl ⊢
    dsimp only
    rw [find?_append_none _ _ hl]
    simp
  · dsimp only
    rw [hl]
    rfl

theorem runSearch_store_movies (key : String) (now : Int) (rs : List OmdbMovie)
    (pf : String → Bool) (st : Store) :
    (runSearch key now rs pf st).store.movies = (processResults pf rs st).1.movies := by
  rw [runSearch]
  rcases h : processResults pf rs st with ⟨st1, err⟩
  cases err
  · show (saveTerm key now st1).movies = (st1, (none : Option ClientError)).1.movies
    rw [saveTerm_movies]
  · rfl

theorem search_and_save_go (q : String) (now : Int) (rs : List OmdbMovie)
    (pf : String → Bool) (st : Store)
    (hns : ∀ t, lookupTerm (pyNormalizeStr q) st = some t → t.last_search ≤ now - day) :
    search_and_save q now rs pf st
      = runSearch (pyNormalizeStr q) now rs pf (ensureTerm (pyNormalizeStr q) now st) := by
  rw [search_and_save, ensureTerm]
  cases hl : lookupTerm (pyNormalizeStr q) st with
  | none => rfl
  | some term =>
    dsimp only
    rw [if_neg (not_lt.mpr (hns term hl))]

theorem search_movie_some (q : String) (now : Int) (rs : List OmdbMovie)
    (pf : String → Bool) {st : Store} {id : String} {m : Movie}
    (h : lookupMovie id st = some m) :
    lookupMovie id (search_and_save q now rs pf st).store = some m := by
  rw [search_and_save]
  cases hl : lookupTerm (pyNormalizeStr q) st with
  | none => exact runSearch_movie_some _ _ _ _ h
  | some term =>
    dsimp only
    by_cases hr : term.last_search > now - day
    · rw [if_pos hr]
      exact h
    · rw [if_neg hr]
      exact runSearch_movie_some _ _ _ _ h

theorem fill_ok_movie (m : Movie) (d : MovieDetails) (st : Store)
    (hne : ¬ m.is_full_record = true) :
    ∃ gl, (fill_movie_details m (Except.ok d) st).movie
      = { m with
          title := d.title,
          year := d.year,
          plot := some d.plot,
          runtime_minutes := some d.runtime_minutes,
          genres := gl,
          is_full_record := true }
      ∧ (∀ g, g ∈ gl ↔ g ∈ d.genres) := by
  obtain ⟨gl, hgl⟩ := foldl_addGenre_shape (get_or_create_genres d.genres st).1
    { m with
      title := d.title,
      year := d.year,
      plot := some d.plot,
      runtime_minutes := some d.runtime_minutes,
      genres := [] }
  refine ⟨gl, ?_, ?_⟩
  · rw [fill_movie_details.eq_def, if_neg hne]
    dsimp only
    rw [hgl]
  · intro g
    have hm := mem_foldl_addGenre (get_or_create_genres d.genres st).1
      { m with
        title := d.title,
        year := d.year,
        plot := some d.plot,
        runtime_minutes := some d.runtime_minutes,
        genres := [] } g
    rw [hgl, fst_get_or_create_genres] at hm
    simpa using hm

theorem fill_ok_store (m : Movie) (d : MovieDetails) (st : Store)
    (hne : ¬ m.is_full_record = true) :
    (fill_movie_details m (Except.ok d) st).store
      = saveMovie (fill_movie_details m (Except.ok d) st).movie
          (get_or_create_genres d.genres st).2 := by
  rw [fill_movie_details.eq_def, if_neg hne]

theorem stepOp_full_frame (op : Op) (st : Store) (id : String) (m : Movie)
    (h : lookupMovie id st = some m) (hfull : m.is_full_record = true) :
    lookupMovie id (stepOp op st) = some m := by
  cases op with
  | search q now rs pf => exact search_movie_some q now rs pf h
  | fill id0 resp =>
    rw [stepOp]
    cases hl : lookupMovie id0 st with
    | none => exact h
    | some m0 =>
      dsimp only
      by_cases hf : m0.is_full_record = true
      · rw [fill_movie_details.eq_def, if_pos hf]
        exact h
      · cases resp with
        | error e =>
          rw [fill_movie_details.eq_def, if_neg hf]
          exact h
        | ok d =>
          have hid0 : m0.imdb_id = id0 := by simpa using List.find?_some hl
          obtain ⟨gl, hmv, _⟩ := fill_ok_movie m0 d st hf
          have hne2 : id ≠ (fill_movie_details m0 (Except.ok d) st).movie.imdb_id := by
            rw [hmv]
            show id ≠ m0.imdb_id
            intro hcontra
            rw [hcontra, hid0, hl] at h
            have : m = m0 := by injection h.symm
            rw [this] at hfull
            exact hf hfull
          rw [fill_ok_store m0 d st hf, lookupMovie_saveMovie_ne _ _ _ hne2,
            lookupMovie_congr _ (movies_get_or_create_genres d.genres st)]
          exact h

theorem runOps_full_frame : ∀ (ops : List Op) (st : Store) (id : String) (m : Movie),
    lookupMovie id st = some m → m.is_full_record = true →
    lookupMovie id (runOps ops st) = some m := by
  intro ops
  induction ops with
  | nil => intro st id m h _; exact h
  | cons op ops ih =>
    intro st id m h hfull
    rw [runOps, List.foldl_cons]
    exact ih (stepOp op st) id m (stepOp_full_frame op st id m h hfull) hfull

/-! ### Claim theorems -/

/-- C1 counterexample: a `SearchTerm` whose timestamp is exactly 24 hours
old (last search at 0, now 86400) is NOT skipped — the comparison on line 56
is strict — so the claim's inclusive lower bound is false on the code: the
search proceeds (the client is called) and the timestamp is updated. -/
theorem search_boundary_24h_proceeds :
    (search_and_save "star wars" 86400 [] (fun _ => false)
        { movies := [], genreNames := [], terms := [{ term := "star wars", last_search := 0 }] }).apiCalled
      = true
    ∧ lookupTerm "star wars"
        (search_and_save "star wars" 86400 [] (fun _ => false)
          { movies := [], genreNames := [], terms := [{ term := "star wars", last_search := 0 }] }).store
      = some { term := "star wars", last_search := 86400 } := by
  decide

/-- C1 (amended): for a `SearchTerm` that already existed, `search_and_save`
skips (logs a warning, calls no API, changes nothing in the store) exactly
when the last-search timestamp is strictly within the past 24 hours
(`last_search > now - 24h`); a timestamp exactly 24 hours old is outside the
window and the search proceeds. -/
theorem search_skip_iff_strictly_recent (q : String) (now : Int) (rs : List OmdbMovie)
    (pf : String → Bool) (st : Store) (term : SearchTerm)
    (hfound : lookupTerm (pyNormalizeStr q) st = some term) :
    ((search_and_save q now rs pf st).apiCalled = false ↔ now - day < term.last_search)
    ∧ (now - day < term.last_search →
        search_and_save q now rs pf st
          = { store := st, warned := true, apiCalled := false, error := none }) := by
  have hbody : search_and_save q now rs pf st
      = if term.last_search > now - day
        then { store := st, warned := true, apiCalled := false, error := none }
        else runSearch (pyNormalizeStr q) now rs pf st := by
    rw [search_and_save, hfound]
  by_cases hr : now - day < term.last_search
  · rw [hbody, if_pos hr]
    exact ⟨⟨fun _ => hr, fun _ => rfl⟩, fun _ => rfl⟩
  · rw [hbody, if_neg hr]
    have hapi := runSearch_apiCalled (pyNormalizeStr q) now rs pf st
    refine ⟨⟨fun hfalse => ?_, fun hcontra => absurd hcontra hr⟩,
      fun hcontra => absurd hcontra hr⟩
    rw [hapi] at hfalse
    exact absurd hfalse (by simp)

/-- Witness for the amended C1: a term last searched 23 hours ago
(timestamp 0, now 82800) is skipped with the store untouched. -/
theorem search_skip_iff_strictly_recent_inst :
    ((search_and_save "star wars" 82800 [] (fun _ => false)
        { movies := [], genreNames := [], terms := [{ term := "star wars", last_search := 0 }] }).apiCalled = false
      ↔ (82800 : Int) - day < 0)
    ∧ ((82800 : Int) - day < 0 →
        search_and_save "star wars" 82800 [] (fun _ => false)
          { movies := [], genreNames := [], terms := [{ term := "star wars", last_search := 0 }] }
        = { store := { movies := [], genreNames := [], terms := [{ term := "star wars", last_search := 0 }] }, warned := true, apiCalled := false, error := none }) :=
  search_skip_iff_strictly_recent "star wars" 82800 [] (fun _ => false)
    { movies := [], genreNames := [], terms := [{ term := "star wars", last_search := 0 }] }
    { term := "star wars", last_search := 0 } (by decide)

/-- C2: calling `fill_movie_details` on a movie whose full-record flag is
true logs the warning and returns with no catalog call and a completely
unchanged store and movie. -/
theorem fill_full_record_noop (m : Movie) (resp : Except ClientError MovieDetails)
    (st : Store) (h : m.is_full_record = true) :
    fill_movie_details m resp st
      = { store := st, movie := m, warned := true, apiCalled := false, error := none } := by
  rw [fill_movie_details.eq_def, if_pos h]

/-- Witness for C2: a concrete full record is untouched. -/
theorem fill_full_record_noop_inst :
    fill_movie_details { imdb_id := "tt1", title := "t", year := 2000, plot := none, runtime_minutes := none, genres := [], is_full_record := true }
        (Except.error { msg := "boom" })
        { movies := [{ imdb_id := "tt1", title := "t", year := 2000, plot := none, runtime_minutes := none, genres := [], is_full_record := true }], genreNames := [], terms := [] }
      = { store := { movies := [{ imdb_id := "tt1", title := "t", year := 2000, plot := none, runtime_minutes := none, genres := [], is_full_record := true }], genreNames := [], terms := [] }, movie := { imdb_id := "tt1", title := "t", year := 2000, plot := none, runtime_minutes := none, genres := [], is_full_record := true }, warned := true, apiCalled := false, error := none } :=
  fill_full_record_noop _ _ _ rfl

/-- C3: whenever the recency check passes, `search_and_save` calls the API
and — after processing all results, even zero of them — persists the
`SearchTerm` with its last-search timestamp set to the current time. -/
theorem search_updates_timestamp_after_results (q : String) (now : Int)
    (rs : List OmdbMovie) (pf : String → Bool) (st : Store)
    (hns : ∀ t, lookupTerm (pyNormalizeStr q) st = some t → t.last_search ≤ now - day)
    (hok : ∀ r ∈ rs, pf r.imdb_id = false) :
    (search_and_save q now rs pf st).apiCalled = true
    ∧ lookupTerm (pyNormalizeStr q) (search_and_save q now rs pf st).store
        = some { term := pyNormalizeStr q, last_search := now } := by
  rw [search_and_save_go q now rs pf st hns]
  refine ⟨runSearch_apiCalled _ _ _ _ _, ?_⟩
  rw [runSearch]
  have herr := processResults_ok pf rs (ensureTerm (pyNormalizeStr q) now st) hok
  rcases hpr : processResults pf rs (ensureTerm (pyNormalizeStr q) now st) with ⟨st1, err⟩
  rw [hpr] at herr
  have herr2 : err = none := herr
  subst herr2
  dsimp only
  apply lookupTerm_saveTerm
  have hterms : st1.terms = (ensureTerm (pyNormalizeStr q) now st).terms := by
    have h2 := processResults_terms pf rs (ensureTerm (pyNormalizeStr q) now st)
    rw [hpr] at h2
    exact h2
  rw [lookupTerm_congr (pyNormalizeStr q) hterms]
  exact lookupTerm_ensureTerm_isSome _ _ _

/-- Witness for C3: a fresh term with zero results still gets its timestamp
persisted, and the API is called. -/
theorem search_updates_timestamp_after_results_inst :
    (search_and_save "Star  Wars" 100 [] (fun _ => false)
        { movies := [], genreNames := [], terms := [] }).apiCalled = true
    ∧ lookupTerm (pyNormalizeStr "Star  Wars")
        (search_and_save "Star  Wars" 100 [] (fun _ => false)
          { movies := [], genreNames := [], terms := [] }).store
      = some { term := pyNormalizeStr "Star  Wars", last_search := 100 } :=
  search_updates_timestamp_after_results "Star  Wars" 100 [] (fun _ => false)
    { movies := [], genreNames := [], terms := [] }
    (fun t ht => Option.noConfusion ht) (fun r hr => absurd hr (List.not_mem_nil r))

/-- C4: on a partial record, `fill_movie_details` calls the client, and on a
successful response overwrites title, year, plot and runtime from it,
replaces the genre associations by exactly the response's genre set
(creating exactly the missing `Genre` rows, never duplicating existing
ones), sets the full-record flag, and persists the movie. -/
theorem fill_partial_record_updates (m : Movie) (d : MovieDetails) (st : Store)
    (h : m.is_full_record = false) :
    (fill_movie_details m (Except.ok d) st).apiCalled = true
    ∧ (fill_movie_details m (Except.ok d) st).error = none
    ∧ (fill_movie_details m (Except.ok d) st).movie.imdb_id = m.imdb_id
    ∧ (fill_movie_details m (Except.ok d) st).movie.title = d.title
    ∧ (fill_movie_details m (Except.ok d) st).movie.year = d.year
    ∧ (fill_movie_details m (Except.ok d) st).movie.plot = some d.plot
    ∧ (fill_movie_details m (Except.ok d) st).movie.runtime_minutes = some d.runtime_minutes
    ∧ (fill_movie_details m (Except.ok d) st).movie.is_full_record = true
    ∧ (∀ g, g ∈ (fill_movie_details m (Except.ok d) st).movie.genres ↔ g ∈ d.genres)
    ∧ (∀ g, g ∈ (fill_movie_details m (Except.ok d) st).store.genreNames
          ↔ g ∈ st.genreNames ∨ g ∈ d.genres)
    ∧ (st.genreNames.Nodup → (fill_movie_details m (Except.ok d) st).store.genreNames.Nodup)
    ∧ lookupMovie m.imdb_id (fill_movie_details m (Except.ok d) st).store
        = some (fill_movie_details m (Except.ok d) st).movie := by
  have hne : ¬ m.is_full_record = true := by rw [h]; simp
  obtain ⟨gl, hmv, hglmem⟩ := fill_ok_movie m d st hne
  have hst := fill_ok_store m d st hne
  have hid : (fill_movie_details m (Except.ok d) st).movie.imdb_id = m.imdb_id := by
    rw [hmv]
  refine ⟨?_, ?_, hid, ?_, ?_, ?_, ?_, ?_, ?_, ?_, ?_, ?_⟩
  · rw [fill_movie_details.eq_def, if_neg hne]
  · rw [fill_movie_details.eq_def, if_neg hne]
  · rw [hmv]
  · rw [hmv]
  · rw [hmv]
  · rw [hmv]
  · rw [hmv]
  · intro g
    rw [hmv]
    exact hglmem g
  · intro g
    rw [hst, genreNames_saveMovie]
    exact mem_genreNames_get_or_create d.genres st g
  · intro hn
    rw [hst, genreNames_saveMovie]
    exact nodup_genreNames_get_or_create d.genres st hn
  · rw [hst, ← hid]
    exact lookupMovie_saveMovie_self _ _

/-- Witness for C4: filling a concrete partial record sets its full-record
flag. -/
theorem fill_partial_record_updates_inst :
    (fill_movie_details { imdb_id := "tt1", title := "old", year := 1, plot := none, runtime_minutes := none, genres := ["Horror"], is_full_record := false }
        (Except.ok { title := "T", year := 1999, plot := "p", runtime_minutes := 100, genres := ["Action", "Drama"] })
        { movies := [{ imdb_id := "tt1", title := "old", year := 1, plot := none, runtime_minutes := none, genres := ["Horror"], is_full_record := false }], genreNames := ["Action"], terms := [] }).movie.is_full_record
      = true :=
  (fill_partial_record_updates _ _ _ rfl).2.2.2.2.2.2.2.1

/-- C5: a search result whose external id already identifies a stored movie
leaves that stored movie byte-for-byte unchanged — search results never
overwrite an existing record. -/
theorem search_preserves_existing_movie (q : String) (now : Int) (rs : List OmdbMovie)
    (pf : String → Bool) (st : Store) (r : OmdbMovie) (m : Movie)
    (hr : r ∈ rs) (hm : lookupMovie r.imdb_id st = some m) :
    lookupMovie r.imdb_id (search_and_save q now rs pf st).store = some m :=
  search_movie_some q now rs pf hm

/-- Witness for C5: an existing full record survives a search returning its
id with different metadata. -/
theorem search_preserves_existing_movie_inst :
    lookupMovie "tt1"
        (search_and_save "q" 0 [{ title := "New", year := 2, imdb_id := "tt1" }] (fun _ => false)
          { movies := [{ imdb_id := "tt1", title := "Old", year := 1, plot := none, runtime_minutes := none, genres := [], is_full_record := true }], genreNames := [], terms := [] }).store
      = some { imdb_id := "tt1", title := "Old", year := 1, plot := none, runtime_minutes := none, genres := [], is_full_record := true } :=
  search_preserves_existing_movie "q" 0 [{ title := "New", year := 2, imdb_id := "tt1" }]
    (fun _ => false)
    { movies := [{ imdb_id := "tt1", title := "Old", year := 1, plot := none, runtime_minutes := none, genres := [], is_full_record := true }], genreNames := [], terms := [] }
    { title := "New", year := 2, imdb_id := "tt1" } _ (by decide) (by decide)

/-- C6: a search result whose external id is unknown creates a new partial
`Movie` row carrying the result's title and year, with plot and runtime
unset and the full-record flag false. -/
theorem search_creates_partial_record (q : String) (now : Int) (rs : List OmdbMovie)
    (pf : String → Bool) (st : Store) (r : OmdbMovie)
    (hr : r ∈ rs)
    (hnone : lookupMovie r.imdb_id st = none)
    (hnd : (rs.map (fun x => x.imdb_id)).Nodup)
    (hok : ∀ x ∈ rs, pf x.imdb_id = false)
    (hns : ∀ t, lookupTerm (pyNormalizeStr q) st = some t → t.last_search ≤ now - day) :
    lookupMovie r.imdb_id (search_and_save q now rs pf st).store
      = some (partialMovie r) := by
  rw [search_and_save_go q now rs pf st hns]
  rw [lookupMovie_congr r.imdb_id
    (runSearch_store_movies (pyNormalizeStr q) now rs pf (ensureTerm (pyNormalizeStr q) now st))]
  apply processResults_creates pf rs _ r hr hnd hok
  rw [lookupMovie_congr r.imdb_id (ensureTerm_movies (pyNormalizeStr q) now st)]
  exact hnone

/-- Witness for C6: a search returning two unknown ids creates a partial
record for the first of them. -/
theorem search_creates_partial_record_inst :
    lookupMovie "idA"
        (search_and_save "q" 0 [{ title := "A", year := 1, imdb_id := "idA" }, { title := "B", year := 2, imdb_id := "idB" }] (fun _ => false)
          { movies := [], genreNames := [], terms := [] }).store
      = some (partialMovie { title := "A", year := 1, imdb_id := "idA" }) :=
  search_creates_partial_record "q" 0
    [{ title := "A", year := 1, imdb_id := "idA" }, { title := "B", year := 2, imdb_id := "idB" }]
    (fun _ => false) { movies := [], genreNames := [], terms := [] }
    { title := "A", year := 1, imdb_id := "idA" }
    (by decide) (by decide) (by decide) (by decide)
    (fun t ht => Option.noConfusion ht)

/-- C8: across any sequence of fill and search operations a stored movie
whose full-record flag is true is never modified again (so the flag flips
false to true at most once and never reverts), and a search never modifies
any previously stored movie at all. -/
theorem full_record_flag_monotone :
    (∀ (ops : List Op) (st : Store) (id : String) (m : Movie),
        lookupMovie id st = some m → m.is_full_record = true →
        lookupMovie id (runOps ops st) = some m)
    ∧ (∀ (q : String) (now : Int) (rs : List OmdbMovie) (pf : String → Bool)
        (st : Store) (id : String) (m : Movie),
        lookupMovie id st = some m →
        lookupMovie id (search_and_save q now rs pf st).store = some m) :=
  ⟨runOps_full_frame, fun q now rs pf _ _ _ h => search_movie_some q now rs pf h⟩

/-- Witness for C8: a full record survives a fill of its own id followed by
a search that returns its id, and a search leaves a stored movie intact. -/
theorem full_record_flag_monotone_inst :
    lookupMovie "tt1"
        (runOps [Op.fill "tt1" (Except.ok { title := "T2", year := 2001, plot := "q", runtime_minutes := 90, genres := ["Drama"] }), Op.search "s" 0 [{ title := "X", year := 1, imdb_id := "tt1" }] (fun _ => false)]
          { movies := [{ imdb_id := "tt1", title := "T", year := 2000, plot := some "p", runtime_minutes := some 10, genres := [], is_full_record := true }], genreNames := [], terms := [] })
      = some { imdb_id := "tt1", title := "T", year := 2000, plot := some "p", runtime_minutes := some 10, genres := [], is_full_record := true }
    ∧ lookupMovie "tt1"
        (search_and_save "s2" 5 [] (fun _ => false)
          { movies := [{ imdb_id := "tt1", title := "T", year := 2000, plot := some "p", runtime_minutes := some 10, genres := [], is_full_record := true }], genreNames := [], terms := [] }).store
      = some { imdb_id := "tt1", title := "T", year := 2000, plot := some "p", runtime_minutes := some 10, genres := [], is_full_record := true } :=
  ⟨full_record_flag_monotone.1 _ _ "tt1" _ (by decide) (by decide),
   full_record_flag_monotone.2 "s2" 5 [] (fun _ => false) _ "tt1" _ (by decide)⟩

/-- C9: when persisting one search result fails, the error propagates, the
results after the failing one are not processed, the movies persisted for
the earlier results remain saved, and no surrounding transaction rolls
anything back (the store equals exactly the state after the prefix). -/
theorem search_persist_failure_propagates (q : String) (now : Int)
    (pre post : List OmdbMovie) (bad : OmdbMovie) (pf : String → Bool) (st : Store)
    (hns : ∀ t, lookupTerm (pyNormalizeStr q) st = some t → t.last_search ≤ now - day)
    (hpre : ∀ r ∈ pre, pf r.imdb_id = false)
    (hbad : pf bad.imdb_id = true) :
    (search_and_save q now (pre ++ bad :: post) pf st).error = some { msg := bad.imdb_id }
    ∧ (search_and_save q now (pre ++ bad :: post) pf st).store
        = (processResults pf pre (ensureTerm (pyNormalizeStr q) now st)).1
    ∧ (∀ r ∈ pre, (lookupMovie r.imdb_id
        (search_and_save q now (pre ++ bad :: post) pf st).store).isSome)
    ∧ (search_and_save q now (pre ++ bad :: post) pf st).apiCalled = true := by
  rw [search_and_save_go q now (pre ++ bad :: post) pf st hns]
  rw [runSearch]
  rw [processResults_chain pf pre (bad :: post) (ensureTerm (pyNormalizeStr q) now st) hpre]
  rw [show processResults pf (bad :: post)
        (processResults pf pre (ensureTerm (pyNormalizeStr q) now st)).1
      = ((processResults pf pre (ensureTerm (pyNormalizeStr q) now st)).1,
          some { msg := bad.imdb_id }) from by
    rw [processResults, hbad]
    simp]
  dsimp only
  exact ⟨rfl, rfl, fun r hrp => processResults_mem_isSome pf pre _ r hrp hpre, rfl⟩

/-- Witness for C9: with the second of three results failing to persist, the
first is saved, the error surfaces, and the third is never processed. -/
theorem search_persist_failure_propagates_inst :
    (search_and_save "q" 0 ([{ title := "A", year := 1, imdb_id := "idA" }] ++ { title := "B", year := 2, imdb_id := "idB" } :: [{ title := "C", year := 3, imdb_id := "idC" }]) (fun i => decide (i = "idB")) { movies := [], genreNames := [], terms := [] }).error = some { msg := "idB" }
    ∧ (search_and_save "q" 0 ([{ title := "A", year := 1, imdb_id := "idA" }] ++ { title := "B", year := 2, imdb_id := "idB" } :: [{ title := "C", year := 3, imdb_id := "idC" }]) (fun i => decide (i = "idB")) { movies := [], genreNames := [], terms := [] }).store
        = (processResults (fun i => decide (i = "idB")) [{ title := "A", year := 1, imdb_id := "idA" }] (ensureTerm (pyNormalizeStr "q") 0 { movies := [], genreNames := [], terms := [] })).1
    ∧ (∀ r ∈ [({ title := "A", year := 1, imdb_id := "idA" } : OmdbMovie)], (lookupMovie r.imdb_id
        (search_and_save "q" 0 ([{ title := "A", year := 1, imdb_id := "idA" }] ++ { title := "B", year := 2, imdb_id := "idB" } :: [{ title := "C", year := 3, imdb_id := "idC" }]) (fun i => decide (i = "idB")) { movies := [], genreNames := [], terms := [] }).store).isSome)
    ∧ (search_and_save "q" 0 ([{ title := "A", year := 1, imdb_id := "idA" }] ++ { title := "B", year := 2, imdb_id := "idB" } :: [{ title := "C", year := 3, imdb_id := "idC" }]) (fun i => decide (i = "idB")) { movies := [], genreNames := [], terms := [] }).apiCalled = true :=
  search_persist_failure_propagates "q" 0
    [{ title := "A", year := 1, imdb_id := "idA" }]
    [{ title := "C", year := 3, imdb_id := "idC" }]
    { title := "B", year := 2, imdb_id := "idB" }
    (fun i => decide (i = "idB")) { movies := [], genreNames := [], terms := [] }
    (fun t ht => Option.noConfusion ht) (by decide) (by decide)

end Omdb
